import Mathlib

/-!
Shallow embedding of `src/ag2_ext_yepcode/_yepcode_executor.py`.

The module defines one adapter class, `YepCodeCodeExecutor`, whose
observable behaviour is:
  * `_normalize_language`: lower-case the language name and map the
    aliases py/python and js/javascript to canonical names;
  * `__init__`: validate the timeout, resolve the API token from the
    explicit argument or the `YEPCODE_API_TOKEN` environment variable;
  * `execute_code_blocks`: a serial loop that submits each block to the
    remote client (`self._runner.run`), optionally waits for completion,
    formats the response and aggregates the per-block outputs.

The remote client is modelled by an environment `env : Nat → RunBehavior`
giving, for the n-th `run` call of a batch, either the exception the call
raises or the completed execution handle it returns (`wait_for_done` is
then the observation of that already-given terminal state; the embedding
records the wait calls and the run calls in separate trace functions so
that claims about which remote operations happen can be stated).

Python truthiness is modelled faithfully: `if execution.error:`,
`if execution.return_value:` and `if not self._api_token:` test a string
for being non-empty (and an `Option` for being `some` of a non-empty
string), and `if execution.logs:` tests a list for being non-empty.
Strings are lower-cased character-wise with `Char.toLower`, which agrees
with Python `str.lower` on ASCII input.

All exceptions thrown inside the batch loop are caught by the code and
turned into an ordinary result, so `execute_code_blocks` is embedded as a
total function into `YepCodeCodeResult`; only construction can fail, so
the `__init__` embedding returns an `Except`.
-/

/-- A code block handed to the executor: `CodeBlock(language, code)`. -/
structure CodeBlock where
  language : String
  code : String
deriving Repr, DecidableEq

/-- One entry of `execution.logs`: fields `timestamp`, `level`, `message`. -/
structure LogEntry where
  timestamp : String
  level : String
  message : String
deriving Repr, DecidableEq

/-- The terminal state of a remote execution handle, as consumed by the
executor: `id`, `error`, `return_value` (its string rendering) and `logs`. -/
structure Execution where
  id : String
  error : Option String
  return_value : Option String
  logs : List LogEntry
deriving Repr, DecidableEq

/-- What one call to `self._runner.run` does: either raise an exception
with the given message, or return an execution handle whose terminal
state is `e`. -/
inductive RunBehavior where
  | raises (msg : String)
  | exec (e : Execution)
deriving Repr, DecidableEq

/-- The result record `YepCodeCodeResult(exit_code, output, execution_id)`;
`execution_id` defaults to `None` when not passed. -/
structure YepCodeCodeResult where
  exit_code : Int
  output : String
  execution_id : Option String := none
deriving Repr, DecidableEq

/-- The options dictionary passed to `self._runner.run`. -/
structure RunOptions where
  language : String
  removeOnDone : Bool
  timeout : Int
deriving Repr, DecidableEq

/-- The configuration held by a constructed executor instance. -/
structure ExecutorConfig where
  timeout : Int
  remove_on_done : Bool
  sync_execution : Bool
deriving Repr, DecidableEq

/-- Python truthiness of an optional string: `None` and `""` are falsy,
every other string is truthy. -/
def optStrTruthy : Option String → Bool
  | none => false
  | some s => !s.isEmpty

/-- Python `language.lower()`, character-wise (agrees with CPython on
ASCII input, which is all the language table distinguishes). -/
def str_lower (s : String) : String :=
  String.mk (s.data.map Char.toLower)

/-- `YepCodeCodeExecutor._normalize_language`. -/
def normalize_language (language : String) : String :=
  let lang := str_lower language
  if lang ∈ ["js", "javascript"] then "javascript"
  else if lang ∈ ["python", "py"] then "python"
  else lang

/-- `YepCodeCodeExecutor.SUPPORTED_LANGUAGES`. -/
def SUPPORTED_LANGUAGES : List String := ["python", "javascript"]

/-- `YepCodeCodeExecutor.__init__`, restricted to its observable
configuration logic: the timeout check and the token resolution
`api_token or os.getenv("YEPCODE_API_TOKEN")` followed by
`if not self._api_token: raise ValueError(...)`. `env_token` is the value
of the `YEPCODE_API_TOKEN` environment variable (`none` when unset).
On success it returns the resolved token. -/
def yepcode_executor_init (api_token : Option String) (timeout : Int)
    (env_token : Option String) : Except String String :=
  if timeout < 1 then
    Except.error "Timeout must be greater than or equal to 1."
  else
    let resolved := if optStrTruthy api_token then api_token else env_token
    if optStrTruthy resolved then
      Except.ok (resolved.getD "")
    else
      Except.error "YepCode API token is required. Provide it via api_token parameter or YEPCODE_API_TOKEN environment variable."

/-- The log section built at lines 163-171: empty when `execution.logs`
is falsy, otherwise a header plus one line per entry. -/
def logsOutput (e : Execution) : String :=
  if e.logs.isEmpty then ""
  else
    "\n\nExecution logs:\n" ++
      String.intercalate "\n"
        (e.logs.map (fun log => log.timestamp ++ " - " ++ log.level ++ ": " ++ log.message))

/-- The loop body of `execute_code_blocks` (lines 137-201): processes the
remaining blocks, with `i` the number of `run` calls already made,
`outputs` the accumulated per-block outputs in reverse order and
`last_execution_id` the id of the last submitted execution. -/
def execLoop (cfg : ExecutorConfig) (env : Nat → RunBehavior) :
    List CodeBlock → Nat → List String → Option String → YepCodeCodeResult
  | [], _, outputs, last_execution_id =>
    { exit_code := 0
      output := String.intercalate "\n===\n" outputs.reverse
      execution_id := last_execution_id }
  | code_block :: rest, i, outputs, last_execution_id =>
    let lang := normalize_language code_block.language
    if lang ∉ ["python", "javascript"] then
      { exit_code := 1
        output := "Unsupported language: " ++ code_block.language ++
          ". Supported languages: " ++ String.intercalate ", " SUPPORTED_LANGUAGES
        execution_id := none }
    else
      match env i with
      | RunBehavior.raises msg =>
        { exit_code := 1
          output := "Error executing code: " ++ msg
          execution_id := last_execution_id }
      | RunBehavior.exec execution =>
        if cfg.sync_execution then
          if optStrTruthy execution.error then
            { exit_code := 1
              output := "Execution failed with error:\n" ++ execution.error.getD "" ++
                logsOutput execution
              execution_id := some execution.id }
          else
            execLoop cfg env rest (i + 1)
              (((if optStrTruthy execution.return_value then
                    "Execution result:\n" ++ execution.return_value.getD ""
                  else "") ++ logsOutput execution) :: outputs)
              (some execution.id)
        else
          execLoop cfg env rest (i + 1)
            (("Execution started with ID: " ++ execution.id) :: outputs)
            (some execution.id)

/-- `YepCodeCodeExecutor.execute_code_blocks`. -/
def execute_code_blocks (cfg : ExecutorConfig) (env : Nat → RunBehavior)
    (code_blocks : List CodeBlock) : YepCodeCodeResult :=
  if code_blocks.isEmpty then
    { exit_code := 0, output := "" }
  else
    execLoop cfg env code_blocks 0 [] none

/-- Trace of the `self._runner.run` calls `execute_code_blocks` makes:
the code and options of each call, in order. Mirrors the control flow of
`execLoop`. -/
def runCallsLoop (cfg : ExecutorConfig) (env : Nat → RunBehavior) :
    List CodeBlock → Nat → List (String × RunOptions)
  | [], _ => []
  | code_block :: rest, i =>
    let lang := normalize_language code_block.language
    if lang ∉ ["python", "javascript"] then []
    else
      (code_block.code,
        { language := lang, removeOnDone := cfg.remove_on_done,
          timeout := cfg.timeout * 1000 }) ::
        match env i with
        | RunBehavior.raises _ => []
        | RunBehavior.exec execution =>
          if cfg.sync_execution then
            if optStrTruthy execution.error then []
            else runCallsLoop cfg env rest (i + 1)
          else runCallsLoop cfg env rest (i + 1)

/-- The `run` calls made by a whole `execute_code_blocks` call. -/
def execute_run_calls (cfg : ExecutorConfig) (env : Nat → RunBehavior)
    (code_blocks : List CodeBlock) : List (String × RunOptions) :=
  if code_blocks.isEmpty then [] else runCallsLoop cfg env code_blocks 0

/-- Trace of the `execution.wait_for_done()` calls `execute_code_blocks`
makes: the id of each execution waited on, in order. Mirrors the control
flow of `execLoop`. -/
def waitCallsLoop (cfg : ExecutorConfig) (env : Nat → RunBehavior) :
    List CodeBlock → Nat → List String
  | [], _ => []
  | code_block :: rest, i =>
    let lang := normalize_language code_block.language
    if lang ∉ ["python", "javascript"] then []
    else
      match env i with
      | RunBehavior.raises _ => []
      | RunBehavior.exec execution =>
        if cfg.sync_execution then
          execution.id ::
            (if optStrTruthy execution.error then []
             else waitCallsLoop cfg env rest (i + 1))
        else waitCallsLoop cfg env rest (i + 1)

/-- The `wait_for_done` calls made by a whole `execute_code_blocks` call. -/
def execute_wait_calls (cfg : ExecutorConfig) (env : Nat → RunBehavior)
    (code_blocks : List CodeBlock) : List String :=
  if code_blocks.isEmpty then [] else waitCallsLoop cfg env code_blocks 0

/-- A block whose normalized language passes the support check of
line 140. -/
def blockSupported (b : CodeBlock) : Prop :=
  normalize_language b.language ∈ ["python", "javascript"]

instance (b : CodeBlock) : Decidable (blockSupported b) := by
  unfold blockSupported; infer_instance

/-- The output string one successfully processed block contributes to the
accumulated outputs: in synchronous mode the result text plus log section,
in asynchronous mode the submission notice. -/
def blockOutput (cfg : ExecutorConfig) (beh : RunBehavior) : String :=
  match beh with
  | RunBehavior.raises _ => ""
  | RunBehavior.exec execution =>
    if cfg.sync_execution then
      (if optStrTruthy execution.return_value then
          "Execution result:\n" ++ execution.return_value.getD ""
        else "") ++ logsOutput execution
    else "Execution started with ID: " ++ execution.id

/-- Processing one supported block whose submission succeeds and (in
synchronous mode) whose execution reports no truthy error appends that
block's output and records its execution id. -/
theorem execLoop_cons_success (cfg : ExecutorConfig) (env : Nat → RunBehavior)
    (b : CodeBlock) (rest : List CodeBlock) (i : Nat) (outputs : List String)
    (lastId : Option String) (e : Execution)
    (hb : blockSupported b) (henv : env i = RunBehavior.exec e)
    (herr : cfg.sync_execution = true → optStrTruthy e.error = false) :
    execLoop cfg env (b :: rest) i outputs lastId =
      execLoop cfg env rest (i + 1) (blockOutput cfg (env i) :: outputs) (some e.id) := by
  have hb' : normalize_language b.language ∈ ["python", "javascript"] := hb
  cases hsync : cfg.sync_execution with
  | true => simp [execLoop, henv, blockOutput, hb', hsync, herr hsync]
  | false => simp [execLoop, henv, blockOutput, hb', hsync]

/-- Processing a block whose normalized language fails the support check
aborts with the unsupported-language result (no `execution_id`). -/
theorem execLoop_cons_unsupported (cfg : ExecutorConfig) (env : Nat → RunBehavior)
    (b : CodeBlock) (rest : List CodeBlock) (i : Nat) (outputs : List String)
    (lastId : Option String) (hb : ¬ blockSupported b) :
    execLoop cfg env (b :: rest) i outputs lastId =
      { exit_code := 1
        output := "Unsupported language: " ++ b.language ++
          ". Supported languages: " ++ String.intercalate ", " SUPPORTED_LANGUAGES
        execution_id := none } := by
  have hb' : normalize_language b.language ∉ ["python", "javascript"] := hb
  simp [execLoop, hb']

/-- Processing a supported block whose submission raises aborts with the
submission-error result, carrying the last seen execution id. -/
theorem execLoop_cons_raises (cfg : ExecutorConfig) (env : Nat → RunBehavior)
    (b : CodeBlock) (rest : List CodeBlock) (i : Nat) (outputs : List String)
    (lastId : Option String) (msg : String)
    (hb : blockSupported b) (henv : env i = RunBehavior.raises msg) :
    execLoop cfg env (b :: rest) i outputs lastId =
      { exit_code := 1
        output := "Error executing code: " ++ msg
        execution_id := lastId } := by
  have hb' : normalize_language b.language ∈ ["python", "javascript"] := hb
  simp [execLoop, henv, hb']

/-- In synchronous mode, processing a supported block whose completed
execution reports a truthy error aborts with the execution-error result. -/
theorem execLoop_cons_error (cfg : ExecutorConfig) (env : Nat → RunBehavior)
    (b : CodeBlock) (rest : List CodeBlock) (i : Nat) (outputs : List String)
    (lastId : Option String) (e : Execution)
    (hb : blockSupported b) (henv : env i = RunBehavior.exec e)
    (hsync : cfg.sync_execution = true) (herr : optStrTruthy e.error = true) :
    execLoop cfg env (b :: rest) i outputs lastId =
      { exit_code := 1
        output := "Execution failed with error:\n" ++ e.error.getD "" ++ logsOutput e
        execution_id := some e.id } := by
  have hb' : normalize_language b.language ∈ ["python", "javascript"] := hb
  simp [execLoop, henv, hb', hsync, herr]

/-- Running the loop on `pre ++ l` where every block of `pre` is supported
and processed successfully continues into `l` with the outputs of `pre`
accumulated and the last execution id updated. -/
theorem execLoop_append (cfg : ExecutorConfig) (env : Nat → RunBehavior)
    (es : Nat → Execution) (l : List CodeBlock) (pre : List CodeBlock) :
    ∀ (i : Nat) (outputs : List String) (lastId : Option String),
    (∀ b ∈ pre, blockSupported b) →
    (∀ j, j < pre.length → env (i + j) = RunBehavior.exec (es (i + j)) ∧
      (cfg.sync_execution = true → optStrTruthy (es (i + j)).error = false)) →
    execLoop cfg env (pre ++ l) i outputs lastId =
      execLoop cfg env l (i + pre.length)
        (((List.range pre.length).map (fun j => blockOutput cfg (env (i + j)))).reverse ++ outputs)
        (if pre.length = 0 then lastId else some (es (i + pre.length - 1)).id) := by
  induction pre with
  | nil => intro i outputs lastId _ _; simp
  | cons b pre' ih =>
    intro i outputs lastId hSupp hRun
    have hb : blockSupported b := hSupp b (List.mem_cons_self b pre')
    have h0 := hRun 0 (Nat.succ_pos pre'.length)
    rw [Nat.add_zero] at h0
    obtain ⟨henv, herr⟩ := h0
    rw [List.cons_append,
      execLoop_cons_success cfg env b (pre' ++ l) i outputs lastId (es i) hb henv herr]
    rw [ih (i + 1) (blockOutput cfg (env i) :: outputs) (some (es i).id)
      (fun b' hb' => hSupp b' (List.mem_cons_of_mem b hb'))
      (fun j hj => by
        have h := hRun (j + 1) (Nat.succ_lt_succ hj)
        have hx : i + (j + 1) = i + 1 + j := by omega
        rwa [hx] at h)]
    simp only [List.length_cons]
    congr 1
    · omega
    · rw [List.range_succ_eq_map, List.map_cons, List.map_map, List.reverse_cons,
        List.append_assoc, List.singleton_append, Nat.add_zero]
      congr 2
      apply List.map_congr_left
      intro a _
      simp only [Function.comp_apply]
      congr 2
      omega
    · simp only [Nat.succ_ne_zero, if_false]
      cases hn : pre'.length with
      | zero => simp [hn]
      | succ m =>
        simp only [hn, Nat.succ_ne_zero, if_false]
        congr 3
        omega

/-- A string different from the empty string has `isEmpty = false`. -/
theorem isEmpty_eq_false_of_ne (t : String) (h : t ≠ "") : t.isEmpty = false := by
  simp only [← Bool.not_eq_true, String.isEmpty_iff]
  exact h

/-- A non-empty optional string is truthy. -/
theorem optStrTruthy_of_ne (t : String) (h : t ≠ "") : optStrTruthy (some t) = true := by
  simp [optStrTruthy, isEmpty_eq_false_of_ne t h]

/-- A batch `pre ++ l` whose prefix `pre` is supported and fully
successful runs the loop on `l` with the prefix outputs accumulated. -/
theorem execute_code_blocks_after_pre (cfg : ExecutorConfig) (env : Nat → RunBehavior)
    (es : Nat → Execution) (pre l : List CodeBlock) (hl : l ≠ [])
    (hSupp : ∀ b ∈ pre, blockSupported b)
    (hRun : ∀ j, j < pre.length → env j = RunBehavior.exec (es j) ∧
      (cfg.sync_execution = true → optStrTruthy (es j).error = false)) :
    execute_code_blocks cfg env (pre ++ l) =
      execLoop cfg env l pre.length
        ((List.range pre.length).map (fun j => blockOutput cfg (env j))).reverse
        (if pre.length = 0 then none else some (es (pre.length - 1)).id) := by
  have h1 : (pre ++ l).isEmpty = false := by
    cases l with
    | nil => exact absurd rfl hl
    | cons x xs => simp
  simp only [execute_code_blocks, h1, Bool.false_eq_true, if_false]
  rw [execLoop_append cfg env es l pre 0 [] none hSupp
    (fun j hj => by simpa using hRun j hj)]
  simp [Nat.zero_add]

/-- A non-empty batch all of whose blocks are supported and succeed
returns exit code 0, the joined per-block outputs and the id of the last
execution. -/
theorem execute_code_blocks_success (cfg : ExecutorConfig) (env : Nat → RunBehavior)
    (es : Nat → Execution) (blocks : List CodeBlock) (hne : blocks ≠ [])
    (hSupp : ∀ b ∈ blocks, blockSupported b)
    (hRun : ∀ j, j < blocks.length → env j = RunBehavior.exec (es j) ∧
      (cfg.sync_execution = true → optStrTruthy (es j).error = false)) :
    execute_code_blocks cfg env blocks =
      { exit_code := 0
        output := String.intercalate "\n===\n"
          ((List.range blocks.length).map (fun j => blockOutput cfg (env j)))
        execution_id := some (es (blocks.length - 1)).id } := by
  have h1 : blocks.isEmpty = false := by
    cases blocks with
    | nil => exact absurd rfl hne
    | cons x xs => simp
  simp only [execute_code_blocks, h1, Bool.false_eq_true, if_false]
  have h2 : blocks = blocks ++ [] := by simp
  rw [h2, execLoop_append cfg env es [] blocks 0 [] none hSupp
    (fun j hj => by simpa using hRun j hj)]
  have h3 : blocks.length ≠ 0 := by
    cases blocks with
    | nil => exact absurd rfl hne
    | cons x xs => simp
  simp [execLoop, h3, Nat.zero_add]

/-- Claim C9: on the empty batch `execute_code_blocks` immediately
returns exit code 0 and empty output, and makes no `run` call and no
`wait_for_done` call on the remote client. -/
theorem execute_code_blocks_empty_batch (cfg : ExecutorConfig) (env : Nat → RunBehavior) :
    execute_code_blocks cfg env [] = { exit_code := 0, output := "", execution_id := none } ∧
    execute_run_calls cfg env [] = [] ∧
    execute_wait_calls cfg env [] = [] :=
  ⟨rfl, rfl, rfl⟩

/-- Claim C1 (amended): `_normalize_language` maps any case variant of
py/python to python and any case variant of js/javascript to javascript;
any other input is returned lower-cased (not unchanged). -/
theorem normalize_language_spec (s : String) :
    (str_lower s = "py" ∨ str_lower s = "python" → normalize_language s = "python") ∧
    (str_lower s = "js" ∨ str_lower s = "javascript" → normalize_language s = "javascript") ∧
    (str_lower s ∉ ["py", "python", "js", "javascript"] → normalize_language s = str_lower s) := by
  refine ⟨?_, ?_, ?_⟩ <;> intro h
  · rcases h with h | h <;> simp [normalize_language, h]
  · rcases h with h | h <;> simp [normalize_language, h]
  · simp only [List.mem_cons, List.not_mem_nil, or_false, not_or] at h
    obtain ⟨h1, h2, h3, h4⟩ := h
    simp [normalize_language, h1, h2, h3, h4]

/-- Counterexample to claim C1 as stated: "Java" is not py/python nor
js/javascript in any case variant, yet `_normalize_language` does not
return it unchanged: it returns the lower-cased string "java". -/
theorem normalize_language_counterexample :
    normalize_language "Java" = "java" ∧ normalize_language "Java" ≠ "Java" := by
  decide

/-- Witness for C1 at concrete inputs. -/
theorem normalize_language_spec_witness :
    normalize_language "PYTHON" = "python" ∧ normalize_language "JavaScript" = "javascript" :=
  ⟨(normalize_language_spec "PYTHON").1 (Or.inr (by decide)),
   (normalize_language_spec "JavaScript").2.1 (Or.inr (by decide))⟩

/-- Claim C8: at construction the API token is resolved with the
precedence: a token-yielding (non-empty) explicit argument wins;
otherwise a token-yielding `YEPCODE_API_TOKEN` environment value is used;
when neither yields a token, construction fails with the configuration
error naming the missing credential. -/
theorem yepcode_init_token_resolution (a e : Option String) :
    (∀ t, a = some t → t ≠ "" → yepcode_executor_init a 60 e = Except.ok t) ∧
    ((a = none ∨ a = some "") → ∀ t, e = some t → t ≠ "" →
      yepcode_executor_init a 60 e = Except.ok t) ∧
    ((a = none ∨ a = some "") → (e = none ∨ e = some "") →
      yepcode_executor_init a 60 e =
        Except.error "YepCode API token is required. Provide it via api_token parameter or YEPCODE_API_TOKEN environment variable.") := by
  have h60 : ¬ ((60 : Int) < 1) := by norm_num
  have hE : ("" : String).isEmpty = true := rfl
  refine ⟨?_, ?_, ?_⟩
  · rintro t rfl ht
    simp [yepcode_executor_init, h60, optStrTruthy, isEmpty_eq_false_of_ne t ht]
  · rintro (rfl | rfl) t rfl ht <;>
      simp [yepcode_executor_init, h60, optStrTruthy, hE, isEmpty_eq_false_of_ne t ht]
  · rintro (rfl | rfl) (rfl | rfl) <;> simp [yepcode_executor_init, h60, optStrTruthy, hE]

/-- Witness for C8 at concrete inputs: an explicit token wins over the
environment value. -/
theorem yepcode_init_token_resolution_witness :
    yepcode_executor_init (some "tok") 60 (some "envtok") = Except.ok "tok" :=
  (yepcode_init_token_resolution (some "tok") (some "envtok")).1 "tok" rfl (by decide)

/-- Claim C2: a batch whose processing reaches a block with an
unsupported normalized language aborts there with exit code 1 and output
exactly the unsupported-language message built from the block's original
(un-normalized) language string; prior blocks' outputs are discarded (the
output is only the message) and no exception escapes (the embedding of
`execute_code_blocks` is a total function). -/
theorem execute_code_blocks_unsupported_language (cfg : ExecutorConfig)
    (env : Nat → RunBehavior) (es : Nat → Execution)
    (pre rest : List CodeBlock) (bad : CodeBlock)
    (hSupp : ∀ b ∈ pre, blockSupported b)
    (hRun : ∀ j, j < pre.length → env j = RunBehavior.exec (es j) ∧
      (cfg.sync_execution = true → optStrTruthy (es j).error = false))
    (hbad : ¬ blockSupported bad) :
    execute_code_blocks cfg env (pre ++ bad :: rest) =
      { exit_code := 1
        output := "Unsupported language: " ++ bad.language ++
          ". Supported languages: python, javascript"
        execution_id := none } := by
  rw [execute_code_blocks_after_pre cfg env es pre (bad :: rest) (by simp) hSupp hRun,
    execLoop_cons_unsupported cfg env bad rest pre.length _ _ hbad,
    String.append_assoc]
  rfl

/-- Witness for C2: a successful python block followed by a Java block
yields exactly the unsupported-language outcome. -/
theorem execute_code_blocks_unsupported_language_witness :
    execute_code_blocks ⟨60, false, true⟩
      (fun _ => RunBehavior.exec ⟨"e1", none, some "ok", []⟩)
      ([⟨"python", "print(1)"⟩] ++ ⟨"Java", "x"⟩ :: []) =
      { exit_code := 1
        output := "Unsupported language: Java. Supported languages: python, javascript"
        execution_id := none } :=
  (execute_code_blocks_unsupported_language ⟨60, false, true⟩
    (fun _ => RunBehavior.exec ⟨"e1", none, some "ok", []⟩)
    (fun _ => ⟨"e1", none, some "ok", []⟩)
    [⟨"python", "print(1)"⟩] [] ⟨"Java", "x"⟩
    (by decide) (by decide) (by decide)).trans (by decide)

/-- Claim C10: when the unsupported-language abort happens after at least
one block was successfully submitted, the returned outcome still has
`execution_id = none` (the unsupported branch does not carry the last
seen execution id). -/
theorem execute_code_blocks_unsupported_id_none (cfg : ExecutorConfig)
    (env : Nat → RunBehavior) (es : Nat → Execution)
    (pre rest : List CodeBlock) (bad : CodeBlock)
    (_hpre : pre ≠ [])
    (hSupp : ∀ b ∈ pre, blockSupported b)
    (hRun : ∀ j, j < pre.length → env j = RunBehavior.exec (es j) ∧
      (cfg.sync_execution = true → optStrTruthy (es j).error = false))
    (hbad : ¬ blockSupported bad) :
    (execute_code_blocks cfg env (pre ++ bad :: rest)).exit_code = 1 ∧
    (execute_code_blocks cfg env (pre ++ bad :: rest)).execution_id = none := by
  rw [execute_code_blocks_after_pre cfg env es pre (bad :: rest) (by simp) hSupp hRun,
    execLoop_cons_unsupported cfg env bad rest pre.length _ _ hbad]
  exact ⟨rfl, rfl⟩

/-- Witness for C10. -/
theorem execute_code_blocks_unsupported_id_none_witness :
    (execute_code_blocks ⟨60, false, true⟩
      (fun _ => RunBehavior.exec ⟨"e1", none, some "ok", []⟩)
      ([⟨"python", "print(1)"⟩] ++ ⟨"java", "x"⟩ :: [])).exit_code = 1 ∧
    (execute_code_blocks ⟨60, false, true⟩
      (fun _ => RunBehavior.exec ⟨"e1", none, some "ok", []⟩)
      ([⟨"python", "print(1)"⟩] ++ ⟨"java", "x"⟩ :: [])).execution_id = none :=
  execute_code_blocks_unsupported_id_none ⟨60, false, true⟩
    (fun _ => RunBehavior.exec ⟨"e1", none, some "ok", []⟩)
    (fun _ => ⟨"e1", none, some "ok", []⟩)
    [⟨"python", "print(1)"⟩] [] ⟨"java", "x"⟩
    (by decide) (by decide) (by decide) (by decide)

/-- Claim C4: when the `run` call for a reached block raises, the batch
aborts with exit code 1, the "Error executing code: <message>" output,
and the execution id of the last previously submitted block (`none` when
the failing submission was the first). No exception escapes. -/
theorem execute_code_blocks_run_raises (cfg : ExecutorConfig)
    (env : Nat → RunBehavior) (es : Nat → Execution)
    (pre rest : List CodeBlock) (bad : CodeBlock) (msg : String)
    (hSupp : ∀ b ∈ pre, blockSupported b)
    (hRun : ∀ j, j < pre.length → env j = RunBehavior.exec (es j) ∧
      (cfg.sync_execution = true → optStrTruthy (es j).error = false))
    (hbadSupp : blockSupported bad)
    (hraise : env pre.length = RunBehavior.raises msg) :
    execute_code_blocks cfg env (pre ++ bad :: rest) =
      { exit_code := 1
        output := "Error executing code: " ++ msg
        execution_id := if pre.length = 0 then none else some (es (pre.length - 1)).id } := by
  rw [execute_code_blocks_after_pre cfg env es pre (bad :: rest) (by simp) hSupp hRun,
    execLoop_cons_raises cfg env bad rest pre.length _ _ msg hbadSupp hraise]

/-- Witness for C4: the second submission raises after a successful first
block, and the outcome carries the first block's execution id. -/
theorem execute_code_blocks_run_raises_witness :
    execute_code_blocks ⟨60, false, true⟩
      (fun j => if j = 0 then RunBehavior.exec ⟨"e0", none, none, []⟩
        else RunBehavior.raises "network down")
      ([⟨"python", "a"⟩] ++ ⟨"js", "b"⟩ :: []) =
      { exit_code := 1
        output := "Error executing code: network down"
        execution_id := some "e0" } :=
  (execute_code_blocks_run_raises ⟨60, false, true⟩
    (fun j => if j = 0 then RunBehavior.exec ⟨"e0", none, none, []⟩
      else RunBehavior.raises "network down")
    (fun _ => ⟨"e0", none, none, []⟩)
    [⟨"python", "a"⟩] [] ⟨"js", "b"⟩ "network down"
    (by decide) (by decide) (by decide) (by decide)).trans (by decide)

/-- Claim C3 (amended): in synchronous mode, when a reached block's
completed execution reports a truthy (non-empty) error, the batch aborts
with exit code 1, output "Execution failed with error:\n<error>" followed
by the log section when log entries exist, and that execution's id. -/
theorem execute_code_blocks_execution_error (cfg : ExecutorConfig)
    (env : Nat → RunBehavior) (es : Nat → Execution)
    (pre rest : List CodeBlock) (bad : CodeBlock) (e : Execution)
    (hsync : cfg.sync_execution = true)
    (hSupp : ∀ b ∈ pre, blockSupported b)
    (hRun : ∀ j, j < pre.length → env j = RunBehavior.exec (es j) ∧
      (cfg.sync_execution = true → optStrTruthy (es j).error = false))
    (hbadSupp : blockSupported bad)
    (henv : env pre.length = RunBehavior.exec e)
    (herr : optStrTruthy e.error = true) :
    execute_code_blocks cfg env (pre ++ bad :: rest) =
      { exit_code := 1
        output := "Execution failed with error:\n" ++ e.error.getD "" ++ logsOutput e
        execution_id := some e.id } := by
  rw [execute_code_blocks_after_pre cfg env es pre (bad :: rest) (by simp) hSupp hRun,
    execLoop_cons_error cfg env bad rest pre.length _ _ e hbadSupp henv hsync herr]

/-- Counterexample to claim C3 as stated: an execution whose `error`
field is the non-null empty string does not abort the batch; the code
tests `if execution.error:` for truthiness, so the empty-string error is
treated as success and the batch returns exit code 0. -/
theorem execute_code_blocks_execution_error_counterexample :
    execute_code_blocks ⟨60, false, true⟩
      (fun _ => RunBehavior.exec ⟨"e1", some "", none, []⟩)
      [⟨"python", "x"⟩] =
      { exit_code := 0, output := "", execution_id := some "e1" } := by
  decide

/-- Witness for C3. -/
theorem execute_code_blocks_execution_error_witness :
    execute_code_blocks ⟨60, false, true⟩
      (fun j => if j = 0 then RunBehavior.exec ⟨"e0", none, none, []⟩
        else RunBehavior.exec ⟨"e1", some "boom", none, [⟨"t1", "ERROR", "m1"⟩]⟩)
      ([⟨"python", "a"⟩] ++ ⟨"js", "b"⟩ :: []) =
      { exit_code := 1
        output := "Execution failed with error:\nboom\n\nExecution logs:\nt1 - ERROR: m1"
        execution_id := some "e1" } :=
  (execute_code_blocks_execution_error ⟨60, false, true⟩
    (fun j => if j = 0 then RunBehavior.exec ⟨"e0", none, none, []⟩
      else RunBehavior.exec ⟨"e1", some "boom", none, [⟨"t1", "ERROR", "m1"⟩]⟩)
    (fun _ => ⟨"e0", none, none, []⟩)
    [⟨"python", "a"⟩] [] ⟨"js", "b"⟩ ⟨"e1", some "boom", none, [⟨"t1", "ERROR", "m1"⟩]⟩
    (by decide) (by decide) (by decide) (by decide) (by decide) (by decide)).trans (by decide)

/-- Claim C5: a non-empty batch in which every block is supported and
succeeds returns exit code 0, the per-block output strings joined with
the separator "\n===\n", and the id of the last block's execution. -/
theorem execute_code_blocks_all_success (cfg : ExecutorConfig)
    (env : Nat → RunBehavior) (es : Nat → Execution)
    (blocks : List CodeBlock) (hne : blocks ≠ [])
    (hSupp : ∀ b ∈ blocks, blockSupported b)
    (hRun : ∀ j, j < blocks.length → env j = RunBehavior.exec (es j) ∧
      (cfg.sync_execution = true → optStrTruthy (es j).error = false)) :
    execute_code_blocks cfg env blocks =
      { exit_code := 0
        output := String.intercalate "\n===\n"
          ((List.range blocks.length).map (fun j => blockOutput cfg (env j)))
        execution_id := some (es (blocks.length - 1)).id } :=
  execute_code_blocks_success cfg env es blocks hne hSupp hRun

/-- Witness for C5: two successful synchronous blocks, output joined with
the separator, id of the second execution. -/
theorem execute_code_blocks_all_success_witness :
    execute_code_blocks ⟨60, false, true⟩
      (fun j => if j = 0 then RunBehavior.exec ⟨"a1", none, some "Hello", []⟩
        else RunBehavior.exec ⟨"a2", none, some "World", []⟩)
      [⟨"python", "a"⟩, ⟨"js", "b"⟩] =
      { exit_code := 0
        output := "Execution result:\nHello\n===\nExecution result:\nWorld"
        execution_id := some "a2" } :=
  (execute_code_blocks_all_success ⟨60, false, true⟩
    (fun j => if j = 0 then RunBehavior.exec ⟨"a1", none, some "Hello", []⟩
      else RunBehavior.exec ⟨"a2", none, some "World", []⟩)
    (fun j => if j = 0 then ⟨"a1", none, some "Hello", []⟩
      else ⟨"a2", none, some "World", []⟩)
    [⟨"python", "a"⟩, ⟨"js", "b"⟩]
    (by decide) (by decide) (by decide)).trans (by decide)

/-- `String.intercalate` of a one-element list is that element. -/
theorem intercalate_singleton (s x : String) : String.intercalate s [x] = x := rfl

/-- Claim C6 (amended): in synchronous mode a successfully completed
block contributes "Execution result:\n<value>" when a truthy (non-empty)
return value is present, followed by the log section when log entries
exist; with neither a truthy return value nor logs, the contribution is
the empty string. Stated on a one-block batch. -/
theorem execute_code_blocks_block_output (cfg : ExecutorConfig)
    (env : Nat → RunBehavior) (b : CodeBlock) (e : Execution)
    (hsync : cfg.sync_execution = true)
    (hb : blockSupported b)
    (henv : env 0 = RunBehavior.exec e)
    (herr : optStrTruthy e.error = false) :
    execute_code_blocks cfg env [b] =
      { exit_code := 0
        output := (if optStrTruthy e.return_value = true then
            "Execution result:\n" ++ e.return_value.getD "" else "") ++
          (if e.logs.isEmpty then "" else
            "\n\nExecution logs:\n" ++ String.intercalate "\n"
              (e.logs.map (fun log => log.timestamp ++ " - " ++ log.level ++ ": " ++ log.message)))
        execution_id := some e.id } := by
  have h : execute_code_blocks cfg env [b] = execLoop cfg env [b] 0 [] none := by
    simp [execute_code_blocks]
  rw [h, execLoop_cons_success cfg env b [] 0 [] none e hb henv (fun _ => herr), henv]
  simp [execLoop, blockOutput, hsync, logsOutput, intercalate_singleton]

/-- Counterexample to claim C6 as stated: a present but empty-string
return value is falsy in Python, so `if execution.return_value:` skips
the "Execution result:" prefix and the block's output is empty, not
"Execution result:\n<value>". -/
theorem execute_code_blocks_block_output_counterexample :
    execute_code_blocks ⟨60, false, true⟩
      (fun _ => RunBehavior.exec ⟨"e1", none, some "", []⟩) [⟨"python", "x"⟩] =
      { exit_code := 0, output := "", execution_id := some "e1" } ∧
    "Execution result:\n" ++ (some "" : Option String).getD "" ≠ "" :=
  ⟨by decide, by decide⟩

/-- Witness for C6. -/
theorem execute_code_blocks_block_output_witness :
    execute_code_blocks ⟨60, false, true⟩
      (fun _ => RunBehavior.exec ⟨"e1", none, some "42", [⟨"t1", "INFO", "hi"⟩]⟩)
      [⟨"python", "x"⟩] =
      { exit_code := 0
        output := "Execution result:\n42\n\nExecution logs:\nt1 - INFO: hi"
        execution_id := some "e1" } :=
  (execute_code_blocks_block_output ⟨60, false, true⟩
    (fun _ => RunBehavior.exec ⟨"e1", none, some "42", [⟨"t1", "INFO", "hi"⟩]⟩)
    ⟨"python", "x"⟩ ⟨"e1", none, some "42", [⟨"t1", "INFO", "hi"⟩]⟩
    (by decide) (by decide) (by decide) (by decide)).trans (by decide)

/-- In asynchronous mode the loop never calls `wait_for_done`. -/
theorem waitCallsLoop_async (cfg : ExecutorConfig) (env : Nat → RunBehavior)
    (hasync : cfg.sync_execution = false) :
    ∀ (l : List CodeBlock) (i : Nat), waitCallsLoop cfg env l i = [] := by
  intro l
  induction l with
  | nil => intro i; rfl
  | cons b rest ih =>
    intro i
    simp only [waitCallsLoop]
    split
    · rfl
    · cases henv : env i with
      | raises msg => rfl
      | exec e => simp [hasync, ih]

/-- Claim C7: with `sync_execution = false`, `execute_code_blocks` never
calls `wait_for_done` on any execution handle, and when every block is
supported and successfully submitted each contributes exactly
"Execution started with ID: <id>" to the accumulated outputs. -/
theorem execute_code_blocks_async (cfg : ExecutorConfig) (env : Nat → RunBehavior)
    (es : Nat → Execution) (blocks : List CodeBlock)
    (hasync : cfg.sync_execution = false) :
    execute_wait_calls cfg env blocks = [] ∧
    ((∀ b ∈ blocks, blockSupported b) →
     (∀ j, j < blocks.length → env j = RunBehavior.exec (es j)) →
     (execute_code_blocks cfg env blocks).output =
       String.intercalate "\n===\n"
         ((List.range blocks.length).map
           (fun j => "Execution started with ID: " ++ (es j).id))) := by
  constructor
  · cases blocks with
    | nil => rfl
    | cons b bs =>
      simp only [execute_wait_calls, List.isEmpty_cons, Bool.false_eq_true, if_false]
      exact waitCallsLoop_async cfg env hasync (b :: bs) 0
  · intro hSupp hRun
    cases blocks with
    | nil => rfl
    | cons b bs =>
      rw [execute_code_blocks_success cfg env es (b :: bs) (by simp) hSupp
        (fun j hj => ⟨hRun j hj, fun hs => absurd (hasync.symm.trans hs) (by decide)⟩)]
      show String.intercalate _ _ = _
      congr 1
      apply List.map_congr_left
      intro j hj
      rw [hRun j (List.mem_range.mp hj)]
      simp [blockOutput, hasync]

/-- Witness for C7: two asynchronous blocks produce the two submission
notices and no wait call. -/
theorem execute_code_blocks_async_witness :
    execute_wait_calls ⟨60, false, false⟩
      (fun j => if j = 0 then RunBehavior.exec ⟨"a1", none, none, []⟩
        else RunBehavior.exec ⟨"a2", none, none, []⟩)
      [⟨"python", "a"⟩, ⟨"js", "b"⟩] = [] ∧
    (execute_code_blocks ⟨60, false, false⟩
      (fun j => if j = 0 then RunBehavior.exec ⟨"a1", none, none, []⟩
        else RunBehavior.exec ⟨"a2", none, none, []⟩)
      [⟨"python", "a"⟩, ⟨"js", "b"⟩]).output =
      "Execution started with ID: a1\n===\nExecution started with ID: a2" := by
  obtain ⟨h1, h2⟩ := execute_code_blocks_async ⟨60, false, false⟩
    (fun j => if j = 0 then RunBehavior.exec ⟨"a1", none, none, []⟩
      else RunBehavior.exec ⟨"a2", none, none, []⟩)
    (fun j => if j = 0 then ⟨"a1", none, none, []⟩ else ⟨"a2", none, none, []⟩)
    [⟨"python", "a"⟩, ⟨"js", "b"⟩] rfl
  exact ⟨h1, (h2 (by decide) (by decide)).trans (by decide)⟩
